import Mathlib

/-!
Verification development for `rest_framework_extensions/key_constructor/bits.py`.

The file shallowly embeds the key-bit classes of `bits.py`: Python dicts become
association lists that keep insertion order, Python `None` becomes `Option.none`,
raised exceptions become `Except.error`, and the Django collaborator objects
(request, view instance, paginator, queryset) become structures holding exactly
the attributes the embedded code reads.
-/

namespace Drfx

/-- Python values appearing in the dict sources, kwargs and args of the key
bits; strings and integers are the only shapes the embedded code distinguishes
(everything else is only ever passed through or rendered by force_text). -/
inductive PyVal where
  | vStr : String → PyVal
  | vInt : Int → PyVal
  deriving DecidableEq

/-- Python exceptions that the embedded code can raise or catch. -/
inductive PyErr where
  | attributeError
  | keyError
  | indexError
  | valueError
  | emptyResultSet
  deriving DecidableEq

/-- django.utils.encoding.force_text: force-convert a value to text. It is the
identity on strings and the decimal rendering on integers. -/
def force_text : PyVal → String
  | .vStr s => s
  | .vInt n => toString n

/-- Modelled from the spec: the settings module (not under src) exposes one
configurable constant, the "any value" sentinel DEFAULT_CACHE_ANY_VALUE,
representing "cannot distinguish, treat as one bucket". Its concrete value is
irrelevant to every claim; it is fixed here as an arbitrary string. -/
def DEFAULT_CACHE_ANY_VALUE : String := "any_value"

/-- Python str.lower(), character by character (the embedded keys are ASCII,
where Char.toLower agrees with the Python method). -/
def pyLower (s : String) : String :=
  String.mk (s.data.map Char.toLower)

/-- Modelled from the spec: rest_framework_extensions.utils.prepare_header_name
(not under src) maps a lower-cased header name to the metadata-storage
convention, per the spec example accept-language to http_accept_language: a
http_ prefix with dashes replaced by underscores. -/
def prepare_header_name (name : String) : String :=
  "http_" ++ String.mk (name.data.map (fun c => if c = '-' then '_' else c))

/-- The params specifier of a dict-sourced key bit: the Python values star
(wildcard), an explicit list of selector keys, and None. -/
inductive BitParams where
  | star : BitParams
  | list : List String → BitParams
  | null : BitParams
  deriving DecidableEq

/-- Python dict get on a string-keyed mapping whose stored values may be None:
returns None both for a missing key and for a stored None. -/
def dictGet (d : List (String × Option PyVal)) (k : String) : Option PyVal :=
  match d.find? (fun p => p.1 == k) with
  | some p => p.2
  | none => none

/-- Python dict indexing on a mapping with non-None values, as an Option. -/
def pyDictFind (d : List (String × PyVal)) (k : String) : Option PyVal :=
  (d.find? (fun p => p.1 == k)).map (fun p => p.2)

/-- Python dict item assignment data[key] = v: overwrites the stored value in
place when the key is already present (the entry keeps its position), appends a
new entry otherwise. -/
def pyDictAssign (d : List (String × String)) (k v : String) : List (String × String) :=
  if d.any (fun p => p.1 == k) then
    d.map (fun p => if p.1 == k then (p.1, v) else p)
  else
    d ++ [(k, v)]

/-- The keys of an output mapping, in enumeration order. -/
def dictKeys (d : List (String × String)) : List String :=
  d.map (fun p => p.1)

/-- The two subclass hooks of KeyBitDictBase; identity by default, overridden
by HeadersKeyBit. -/
structure DictBitSpec where
  prepare_key_for_value_retrieving : String → String
  prepare_key_for_value_assignment : String → String

/-- Body of the loop of KeyBitDictBase.get_data: look the (transformed) key up
in the source dict and, if the value is not None, assign the force-converted
text under the (transformed) assignment key. -/
def dictBitStep (spec : DictBitSpec) (source : List (String × Option PyVal))
    (data : List (String × String)) (key : String) : List (String × String) :=
  match dictGet source (spec.prepare_key_for_value_retrieving key) with
  | some v => pyDictAssign data (spec.prepare_key_for_value_assignment key) (force_text v)
  | none => data

/-- KeyBitDictBase.get_data over an already-resolved source dict: with params
None the loop is skipped and the empty dict returned; with the wildcard the
params become the keys of the source dict; otherwise the explicit list is
iterated in order. -/
def KeyBitDictBase.get_data (spec : DictBitSpec) (params : BitParams)
    (source : List (String × Option PyVal)) : List (String × String) :=
  match params with
  | .null => []
  | .star => (source.map (fun p => p.1)).foldl (dictBitStep spec source) []
  | .list ks => ks.foldl (dictBitStep spec source) []

/-- django user object, as read by UserKeyBit: a primary key and the
is_authenticated flag. A request whose user attribute is missing or falsy is
modelled as none at the request level. -/
structure PyUser where
  pk : Int
  is_authenticated : Bool

/-- The accepted renderer of a request, as read by FormatKeyBit. -/
structure Renderer where
  format : String

/-- The request object, holding exactly the attributes the bits read: META,
GET, user and accepted_renderer. The user field is none when the attribute is
absent or falsy (the code guards with hasattr and truthiness). -/
structure Request where
  META : List (String × Option PyVal)
  GET : List (String × Option PyVal)
  user : Option PyUser
  accepted_renderer : Renderer

/-- A model class, as rendered by ModelNameKeyBit: defining module and name. -/
structure ModelClass where
  module : String
  name : String

/-- The paginator of a view, as probed by PaginationKeyBit: each field is some
value when the attribute is present (hasattr) and holds a string. An attribute
present with value None is identified with an absent one: a None selector key
never matches a string key of request.GET, so it contributes nothing. -/
structure Paginator where
  page_query_param : Option String
  page_size_query_param : Option String

/-- A Django queryset, holding the observations the queryset-derived bits make
of it: the EmptyQuerySet marker, whether compiling self.query raises
EmptyResultSet, the query text when it does not, the live row count, and the
text rendering force_text(self.values_list()) when it does not raise. -/
structure QuerySet where
  isEmptyQuerySet : Bool
  raisesEmptyResultSet : Bool
  queryString : String
  rowCount : Nat
  valuesListText : String

/-- str(self.query): raises EmptyResultSet for a query empty by construction. -/
def QuerySet.query_str (qs : QuerySet) : Except PyErr String :=
  if qs.raisesEmptyResultSet then .error .emptyResultSet else .ok qs.queryString

/-- Evaluation of force_text(self.values_list()): raises EmptyResultSet for a
query empty by construction. -/
def QuerySet.values_list_text (qs : QuerySet) : Except PyErr String :=
  if qs.raisesEmptyResultSet then .error .emptyResultSet else .ok qs.valuesListText

/-- The view method, as read by UniqueMethodIdKeyBit. -/
structure ViewMethod where
  methodName : String

/-- The view instance, holding exactly the attributes the bits read. The
filteredQueryset field is the result of view.filter_queryset(view.get_queryset());
filterBy is the collaborator behaviour of .filter(lookup_field = value) on that
queryset, raising ValueError on a type-coercion failure of the value. -/
structure ViewInstance where
  module : String
  className : String
  paginator : Option Paginator
  querysetModel : ModelClass
  filteredQueryset : QuerySet
  lookup_field : String
  kwargs : List (String × PyVal)
  filterBy : String → PyVal → Except PyErr QuerySet

/-- UniqueViewIdKeyBit.get_data: joins module and class name of the view
instance with a dot, falling back to the sentinel when it is None. -/
def UniqueViewIdKeyBit.get_data (view_instance : Option ViewInstance) : String :=
  match view_instance with
  | some v => v.module ++ "." ++ v.className
  | none => DEFAULT_CACHE_ANY_VALUE

/-- UniqueMethodIdKeyBit.get_data: sentinel when view_instance or view_method
is None, otherwise module, class name and method name joined with dots. -/
def UniqueMethodIdKeyBit.get_data (view_instance : Option ViewInstance)
    (view_method : Option ViewMethod) : String :=
  match view_instance, view_method with
  | some v, some m => v.module ++ "." ++ v.className ++ "." ++ m.methodName
  | _, _ => DEFAULT_CACHE_ANY_VALUE

/-- FormatKeyBit.get_data: the force-converted accepted renderer format when
the request is truthy, the sentinel otherwise. -/
def FormatKeyBit.get_data (request : Option Request) : String :=
  match request with
  | some r => force_text (.vStr r.accepted_renderer.format)
  | none => DEFAULT_CACHE_ANY_VALUE

/-- UserKeyBit.get_data: sentinel for a None request; the force-converted user
primary key for an authenticated, truthy user attribute; the literal string
anonymous otherwise. -/
def UserKeyBit.get_data (request : Option Request) : String :=
  match request with
  | none => DEFAULT_CACHE_ANY_VALUE
  | some r =>
    match r.user with
    | some u => if u.is_authenticated then force_text (.vInt u.pk) else "anonymous"
    | none => "anonymous"

/-- Subclass hooks of HeadersKeyBit: retrieval lower-cases the header name and
maps it through prepare_header_name; assignment lower-cases it. -/
def HeadersKeyBit.spec : DictBitSpec where
  prepare_key_for_value_retrieving := fun key => prepare_header_name (pyLower key)
  prepare_key_for_value_assignment := fun key => pyLower key

/-- Subclass hooks of RequestMetaKeyBit: both identity. -/
def RequestMetaKeyBit.spec : DictBitSpec where
  prepare_key_for_value_retrieving := fun key => key
  prepare_key_for_value_assignment := fun key => key

/-- Subclass hooks of QueryParamsKeyBit: both identity (inherited). -/
def QueryParamsKeyBit.spec : DictBitSpec where
  prepare_key_for_value_retrieving := fun key => key
  prepare_key_for_value_assignment := fun key => key

/-- Subclass hooks of KwargsKeyBit: both identity (inherited). -/
def KwargsKeyBit.spec : DictBitSpec where
  prepare_key_for_value_retrieving := fun key => key
  prepare_key_for_value_assignment := fun key => key

/-- The subclass hooks of the four concrete dict-sourced bits. -/
def dictSourcedBitSpecs : List DictBitSpec :=
  [HeadersKeyBit.spec, RequestMetaKeyBit.spec, QueryParamsKeyBit.spec, KwargsKeyBit.spec]

/-- The dict-sourced bits whose two key transforms are both the identity. -/
def identityDictBitSpecs : List DictBitSpec :=
  [RequestMetaKeyBit.spec, QueryParamsKeyBit.spec, KwargsKeyBit.spec]

/-- HeadersKeyBit.get_data: with a non-None params specifier the source dict is
resolved as request.META, which raises AttributeError when the request is
None; with params None the loop is skipped before the request is touched. -/
def HeadersKeyBit.get_data (params : BitParams) (request : Option Request) :
    Except PyErr (List (String × String)) :=
  match params with
  | .null => .ok []
  | p =>
    match request with
    | none => .error .attributeError
    | some r => .ok (KeyBitDictBase.get_data HeadersKeyBit.spec p r.META)

/-- RequestMetaKeyBit.get_data: source dict request.META, identity hooks. -/
def RequestMetaKeyBit.get_data (params : BitParams) (request : Option Request) :
    Except PyErr (List (String × String)) :=
  match params with
  | .null => .ok []
  | p =>
    match request with
    | none => .error .attributeError
    | some r => .ok (KeyBitDictBase.get_data RequestMetaKeyBit.spec p r.META)

/-- QueryParamsKeyBit.get_data: source dict request.GET, identity hooks. -/
def QueryParamsKeyBit.get_data (params : BitParams) (request : Option Request) :
    Except PyErr (List (String × String)) :=
  match params with
  | .null => .ok []
  | p =>
    match request with
    | none => .error .attributeError
    | some r => .ok (KeyBitDictBase.get_data QueryParamsKeyBit.spec p r.GET)

/-- KwargsKeyBit.get_data: the source dict is the kwargs argument itself, so no
attribute of the request is dereferenced. -/
def KwargsKeyBit.get_data (params : BitParams)
    (kwargs : List (String × Option PyVal)) : List (String × String) :=
  KeyBitDictBase.get_data KwargsKeyBit.spec params kwargs

/-- Parameter-name discovery of PaginationKeyBit.get_data: starting from the
empty list, the page_query_param attribute of the paginator of the view is
appended when present, then the page_size_query_param attribute when present;
no paginator attribute (or no view instance) contributes nothing. -/
def PaginationKeyBit.discovered_params (view_instance : Option ViewInstance) : List String :=
  match view_instance with
  | none => []
  | some v =>
    match v.paginator with
    | none => []
    | some pg => pg.page_query_param.toList ++ pg.page_size_query_param.toList

/-- PaginationKeyBit.get_data: overwrites the params argument with the
discovered paginator parameter names and delegates to QueryParamsKeyBit. -/
def PaginationKeyBit.get_data (_params : BitParams) (view_instance : Option ViewInstance)
    (request : Option Request) : Except PyErr (List (String × String)) :=
  QueryParamsKeyBit.get_data (.list (PaginationKeyBit.discovered_params view_instance)) request

/-- The model-class override carried by the params dict of ModelNameKeyBit:
some class exactly when params is truthy (non-None and non-empty) and
params.get("class") is a class. -/
def ModelNameKeyBit.override (params : Option (List (String × ModelClass))) :
    Option ModelClass :=
  match params with
  | none => none
  | some d => if d.isEmpty then none else (d.find? (fun p => p.1 == "class")).map (fun p => p.2)

/-- ModelNameKeyBit.get_data: the module-qualified name of the override class
when present; else of the model backing the queryset of the view when a view
instance is present; else the sentinel. -/
def ModelNameKeyBit.get_data (params : Option (List (String × ModelClass)))
    (view_instance : Option ViewInstance) : String :=
  match ModelNameKeyBit.override params with
  | some c => c.module ++ "." ++ c.name
  | none =>
    match view_instance with
    | some v => v.querysetModel.module ++ "." ++ v.querysetModel.name
    | none => DEFAULT_CACHE_ANY_VALUE

/-- SqlQueryKeyBitBase._get_queryset_query_string: None for an EmptyQuerySet,
otherwise the force-converted query text, with EmptyResultSet caught as None. -/
def SqlQueryKeyBitBase.get_queryset_query_string (queryset : QuerySet) : Option String :=
  if queryset.isEmptyQuerySet then none
  else
    match queryset.query_str with
    | .ok s => some (force_text (.vStr s))
    | .error _ => none

/-- Modelled from the spec: compat.queryset_to_value_list (not under src)
post-processes the text rendering of queryset.values_list() into the ordered
sequence of per-row value tuples; its exact shape is irrelevant to every claim
(all of which concern the None cases), so it is modelled as the identity on the
rendered text. -/
def queryset_to_value_list (s : String) : String := s

/-- ModelInstanceKeyBitBase._get_queryset_query_values: None for an
EmptyQuerySet or a live row count of zero, otherwise the collected values text,
with EmptyResultSet caught as None. -/
def ModelInstanceKeyBitBase.get_queryset_query_values (queryset : QuerySet) : Option String :=
  if queryset.isEmptyQuerySet || queryset.rowCount == 0 then none
  else
    match queryset.values_list_text with
    | .ok s => some (queryset_to_value_list s)
    | .error _ => none

/-- ListSqlQueryKeyBit.get_data: renders the query text of the filtered
queryset of the view; a None view instance raises AttributeError. -/
def ListSqlQueryKeyBit.get_data (view_instance : Option ViewInstance) :
    Except PyErr (Option String) :=
  match view_instance with
  | none => .error .attributeError
  | some v => .ok (SqlQueryKeyBitBase.get_queryset_query_string v.filteredQueryset)

/-- ListModelKeyBit.get_data: renders the row values of the filtered queryset
of the view; a None view instance raises AttributeError. -/
def ListModelKeyBit.get_data (view_instance : Option ViewInstance) :
    Except PyErr (Option String) :=
  match view_instance with
  | none => .error .attributeError
  | some v => .ok (ModelInstanceKeyBitBase.get_queryset_query_values v.filteredQueryset)

/-- RetrieveSqlQueryKeyBit.get_data: looks the lookup value up in the kwargs of
the view (KeyError propagates, it is outside the try block), filters the
queryset by it with ValueError caught as an immediate None result, and
otherwise renders the query text of the filtered queryset. -/
def RetrieveSqlQueryKeyBit.get_data (view_instance : Option ViewInstance) :
    Except PyErr (Option String) :=
  match view_instance with
  | none => .error .attributeError
  | some v =>
    match pyDictFind v.kwargs v.lookup_field with
    | none => .error .keyError
    | some lookup_value =>
      match v.filterBy v.lookup_field lookup_value with
      | .error .valueError => .ok none
      | .error e => .error e
      | .ok qs => .ok (SqlQueryKeyBitBase.get_queryset_query_string qs)

/-- RetrieveModelKeyBit.get_data: same lookup and filtering as the SQL variant,
rendering the row values of the filtered queryset instead. -/
def RetrieveModelKeyBit.get_data (view_instance : Option ViewInstance) :
    Except PyErr (Option String) :=
  match view_instance with
  | none => .error .attributeError
  | some v =>
    match pyDictFind v.kwargs v.lookup_field with
    | none => .error .keyError
    | some lookup_value =>
      match v.filterBy v.lookup_field lookup_value with
      | .error .valueError => .ok none
      | .error e => .error e
      | .ok qs => .ok (ModelInstanceKeyBitBase.get_queryset_query_values qs)

/-- The params specifier of ArgsKeyBit: the wildcard, an explicit list of
integer indices, or None. -/
inductive ArgsBitParams where
  | star : ArgsBitParams
  | idxList : List Int → ArgsBitParams
  | null : ArgsBitParams
  deriving DecidableEq

/-- Python list indexing args[i]: a negative index counts from the end; an
index out of range after that adjustment raises IndexError. -/
def pyListIndex (args : List PyVal) (i : Int) : Except PyErr PyVal :=
  let j : Int := if i < 0 then i + args.length else i
  if 0 ≤ j then
    match args[j.toNat]? with
    | some a => .ok a
    | none => .error .indexError
  else .error .indexError

/-- The list comprehension of ArgsKeyBit.get_data, evaluated left to right with
the first failing index raising. -/
def ArgsKeyBit.gather (args : List PyVal) : List Int → Except PyErr (List PyVal)
  | [] => .ok []
  | i :: rest =>
    match pyListIndex args i with
    | .ok a => (ArgsKeyBit.gather args rest).map (fun l => a :: l)
    | .error e => .error e

/-- ArgsKeyBit.get_data: the whole args sequence for the wildcard, the gathered
comprehension for an explicit index list, the empty list for params None. -/
def ArgsKeyBit.get_data (params : ArgsBitParams) (args : List PyVal) :
    Except PyErr (List PyVal) :=
  match params with
  | .star => .ok args
  | .idxList l => ArgsKeyBit.gather args l
  | .null => .ok []

/-- A plain non-empty queryset used to populate example view instances. -/
def exampleQuerySet : QuerySet :=
  { isEmptyQuerySet := false
    raisesEmptyResultSet := false
    queryString := "SELECT 1"
    rowCount := 1
    valuesListText := "[(1,)]" }

/-- A paginator recognizing only a page-size parameter named page_size. -/
def paginationExamplePaginator : Paginator :=
  { page_query_param := none
    page_size_query_param := some "page_size" }

/-- A view instance carrying the example paginator. -/
def paginationExampleView : ViewInstance :=
  { module := "tests.views"
    className := "TestView"
    paginator := some paginationExamplePaginator
    querysetModel := { module := "app.models", name := "Widget" }
    filteredQueryset := exampleQuerySet
    lookup_field := "pk"
    kwargs := []
    filterBy := fun _ _ => .ok exampleQuerySet }

/-- A request whose query string carries page_size=100 and page=1. -/
def paginationExampleRequest : Request :=
  { META := []
    GET := [("page_size", some (.vStr "100")), ("page", some (.vStr "1"))]
    user := none
    accepted_renderer := { format := "json" } }

/-- A queryset that is an EmptyQuerySet instance. -/
def emptyExampleQuerySet : QuerySet :=
  { isEmptyQuerySet := true
    raisesEmptyResultSet := false
    queryString := ""
    rowCount := 0
    valuesListText := "" }

/-- A queryset whose compiled query raises EmptyResultSet. -/
def raisingExampleQuerySet : QuerySet :=
  { isEmptyQuerySet := false
    raisesEmptyResultSet := true
    queryString := ""
    rowCount := 3
    valuesListText := "" }

/-- A queryset with a live row count of zero. -/
def zeroRowsExampleQuerySet : QuerySet :=
  { isEmptyQuerySet := false
    raisesEmptyResultSet := false
    queryString := "SELECT x"
    rowCount := 0
    valuesListText := "[]" }

/-- A view whose lookup filtering succeeds but produces an EmptyQuerySet. -/
def emptyFilterExampleView : ViewInstance :=
  { paginationExampleView with
    kwargs := [("pk", .vStr "3")]
    filteredQueryset := emptyExampleQuerySet
    filterBy := fun _ _ => .ok emptyExampleQuerySet }

/-- A view whose lookup filtering raises ValueError (unconvertible value). -/
def valueErrorExampleView : ViewInstance :=
  { paginationExampleView with
    kwargs := [("pk", .vStr "abc")]
    filterBy := fun _ _ => .error .valueError }

/-- A request carrying an authenticated user with primary key 10. -/
def userExampleRequest : Request :=
  { META := []
    GET := []
    user := some { pk := 10, is_authenticated := true }
    accepted_renderer := { format := "json" } }

/-- A request carrying an unauthenticated user. -/
def anonymousExampleRequest : Request :=
  { META := []
    GET := []
    user := some { pk := 7, is_authenticated := false }
    accepted_renderer := { format := "json" } }

/-- A model class used as an explicit override for ModelNameKeyBit. -/
def gadgetModelClass : ModelClass :=
  { module := "app.models", name := "Gadget" }

/-- Assigning a key that is not yet present appends the new entry. -/
theorem pyDictAssign_of_not_mem (d : List (String × String)) (k v : String)
    (h : k ∉ dictKeys d) : pyDictAssign d k v = d ++ [(k, v)] := by
  unfold pyDictAssign
  have hany : d.any (fun p => p.1 == k) = false := by
    rw [List.any_eq_false]
    intro p hp
    simp only [beq_iff_eq]
    intro hpk
    exact h (hpk ▸ List.mem_map_of_mem (fun q => q.1) hp)
  simp [hany]

/-- The keys after an assignment are the old keys together with the assigned
key. -/
theorem pyDictAssign_keys (d : List (String × String)) (k v a : String) :
    a ∈ dictKeys (pyDictAssign d k v) ↔ (a ∈ dictKeys d ∨ a = k) := by
  unfold pyDictAssign dictKeys
  by_cases h : d.any (fun p => p.1 == k) = true
  · rw [if_pos h]
    have hk : k ∈ d.map (fun p => p.1) := by
      rcases List.any_eq_true.mp h with ⟨p, hp, hpk⟩
      exact (beq_iff_eq.mp hpk) ▸ List.mem_map_of_mem (fun q => q.1) hp
    have hmap : (d.map (fun p => if p.1 == k then (p.1, v) else p)).map (fun p => p.1)
        = d.map (fun p => p.1) := by
      rw [List.map_map]
      apply List.map_congr_left
      intro p _
      by_cases hpk : p.1 = k <;> simp [hpk]
    rw [hmap]
    constructor
    · exact Or.inl
    · rintro (h1 | rfl)
      · exact h1
      · exact hk
  · rw [if_neg h]
    simp [List.mem_append]

/-- Every entry after an assignment is an old entry or the assigned pair. -/
theorem pyDictAssign_mem (d : List (String × String)) (k v : String) (p : String × String)
    (h : p ∈ pyDictAssign d k v) : p ∈ d ∨ p = (k, v) := by
  unfold pyDictAssign at h
  by_cases hany : d.any (fun q => q.1 == k) = true
  · rw [if_pos hany] at h
    rcases List.mem_map.mp h with ⟨q, hq, hpq⟩
    by_cases hqk : q.1 == k
    · right
      rw [if_pos hqk] at hpq
      rw [← hpq, beq_iff_eq.mp hqk]
    · left
      rw [if_neg hqk] at hpq
      exact hpq ▸ hq
  · rw [if_neg hany] at h
    rcases List.mem_append.mp h with h1 | h2
    · exact Or.inl h1
    · exact Or.inr (by simpa using h2)

/-- Key membership through one loop iteration of KeyBitDictBase.get_data. -/
theorem dictBitStep_keys (spec : DictBitSpec) (source : List (String × Option PyVal))
    (data : List (String × String)) (key a : String) :
    a ∈ dictKeys (dictBitStep spec source data key) ↔
      (a ∈ dictKeys data ∨
        (spec.prepare_key_for_value_assignment key = a ∧
          dictGet source (spec.prepare_key_for_value_retrieving key) ≠ none)) := by
  unfold dictBitStep
  cases hg : dictGet source (spec.prepare_key_for_value_retrieving key) with
  | none => simp
  | some v =>
    rw [pyDictAssign_keys]
    constructor
    · rintro (h | rfl)
      · exact Or.inl h
      · exact Or.inr ⟨rfl, by simp⟩
    · rintro (h | ⟨h1, _⟩)
      · exact Or.inl h
      · exact Or.inr h1.symm

/-- Key membership through the whole loop of KeyBitDictBase.get_data: a key is
present after the loop exactly if it was present before or some selector key
with a non-None looked-up value assigns it. -/
theorem dictBit_foldl_keys (spec : DictBitSpec) (source : List (String × Option PyVal)) :
    ∀ (ks : List String) (data : List (String × String)) (a : String),
      a ∈ dictKeys (ks.foldl (dictBitStep spec source) data) ↔
        (a ∈ dictKeys data ∨ ∃ k, k ∈ ks ∧
          spec.prepare_key_for_value_assignment k = a ∧
          dictGet source (spec.prepare_key_for_value_retrieving k) ≠ none) := by
  intro ks
  induction ks with
  | nil =>
    intro data a
    simp
  | cons k ks ih =>
    intro data a
    rw [List.foldl_cons, ih, dictBitStep_keys]
    constructor
    · rintro ((h | ⟨h1, h2⟩) | ⟨k0, hk0, h1, h2⟩)
      · exact Or.inl h
      · exact Or.inr ⟨k, List.mem_cons_self k ks, h1, h2⟩
      · exact Or.inr ⟨k0, List.mem_cons_of_mem k hk0, h1, h2⟩
    · rintro (h | ⟨k0, hk0, h1, h2⟩)
      · exact Or.inl (Or.inl h)
      · rcases List.mem_cons.mp hk0 with rfl | hk0
        · exact Or.inl (Or.inr ⟨h1, h2⟩)
        · exact Or.inr ⟨k0, hk0, h1, h2⟩

/-- Entry provenance through the loop of KeyBitDictBase.get_data: every entry
after the loop was already present or is the force-converted text of a
non-None looked-up value under a transformed selector key. -/
theorem dictBit_foldl_mem (spec : DictBitSpec) (source : List (String × Option PyVal)) :
    ∀ (ks : List String) (data : List (String × String)) (p : String × String),
      p ∈ ks.foldl (dictBitStep spec source) data →
        (p ∈ data ∨ ∃ k v, k ∈ ks ∧
          p.1 = spec.prepare_key_for_value_assignment k ∧
          dictGet source (spec.prepare_key_for_value_retrieving k) = some v ∧
          p.2 = force_text v) := by
  intro ks
  induction ks with
  | nil =>
    intro data p h
    exact Or.inl h
  | cons k ks ih =>
    intro data p h
    rw [List.foldl_cons] at h
    rcases ih _ p h with h1 | ⟨k0, v0, hk0, ha, hg, hv⟩
    · unfold dictBitStep at h1
      cases hg : dictGet source (spec.prepare_key_for_value_retrieving k) with
      | none =>
        rw [hg] at h1
        exact Or.inl h1
      | some v =>
        rw [hg] at h1
        rcases pyDictAssign_mem _ _ _ _ h1 with h2 | h2
        · exact Or.inl h2
        · exact Or.inr ⟨k, v, List.mem_cons_self k ks, by rw [h2], hg, by rw [h2]⟩
    · exact Or.inr ⟨k0, v0, List.mem_cons_of_mem k hk0, ha, hg, hv⟩

/-- Full description of the loop of KeyBitDictBase.get_data when every
selector key retrieves a value and no two selector keys collide: the entries
are appended in selector order. -/
theorem dictBit_foldl_entries (spec : DictBitSpec) (source : List (String × Option PyVal)) :
    ∀ (ks : List String) (data : List (String × String)),
      (∀ k ∈ ks, dictGet source (spec.prepare_key_for_value_retrieving k) ≠ none) →
      (ks.map spec.prepare_key_for_value_assignment).Nodup →
      (∀ k ∈ ks, spec.prepare_key_for_value_assignment k ∉ dictKeys data) →
      ks.foldl (dictBitStep spec source) data =
        data ++ ks.map (fun k => (spec.prepare_key_for_value_assignment k,
          force_text ((dictGet source (spec.prepare_key_for_value_retrieving k)).getD (.vStr "")))) := by
  intro ks
  induction ks with
  | nil =>
    intro data _ _ _
    simp
  | cons k ks ih =>
    intro data hvals hnd hkeys
    obtain ⟨v, hv⟩ : ∃ v, dictGet source (spec.prepare_key_for_value_retrieving k) = some v := by
      cases hg : dictGet source (spec.prepare_key_for_value_retrieving k) with
      | none => exact absurd hg (hvals k (List.mem_cons_self k ks))
      | some v => exact ⟨v, rfl⟩
    have hstep : dictBitStep spec source data k
        = data ++ [(spec.prepare_key_for_value_assignment k, force_text v)] := by
      unfold dictBitStep
      rw [hv]
      exact pyDictAssign_of_not_mem _ _ _ (hkeys k (List.mem_cons_self k ks))
    have hnd' : (ks.map spec.prepare_key_for_value_assignment).Nodup :=
      (List.nodup_cons.mp (by simpa using hnd)).2
    have hne : spec.prepare_key_for_value_assignment k
        ∉ ks.map spec.prepare_key_for_value_assignment :=
      (List.nodup_cons.mp (by simpa using hnd)).1
    have hkeys' : ∀ k' ∈ ks, spec.prepare_key_for_value_assignment k'
        ∉ dictKeys (data ++ [(spec.prepare_key_for_value_assignment k, force_text v)]) := by
      intro k' hk'
      unfold dictKeys
      rw [List.map_append, List.mem_append]
      rintro (h1 | h2)
      · exact hkeys k' (List.mem_cons_of_mem k hk') h1
      · have : spec.prepare_key_for_value_assignment k'
            = spec.prepare_key_for_value_assignment k := by simpa using h2
        exact hne (this ▸ List.mem_map_of_mem spec.prepare_key_for_value_assignment hk')
    have := ih (data ++ [(spec.prepare_key_for_value_assignment k, force_text v)])
      (fun k' hk' => hvals k' (List.mem_cons_of_mem k hk')) hnd' hkeys'
    rw [List.foldl_cons, hstep, this, List.map_cons, hv]
    simp

/-- On a source dict with pairwise-distinct keys, find? at the key of a member
entry returns that entry. -/
theorem find_eq_self_of_nodup (source : List (String × Option PyVal))
    (hnd : (source.map (fun p => p.1)).Nodup) (p : String × Option PyVal) (hp : p ∈ source) :
    source.find? (fun q => q.1 == p.1) = some p := by
  induction source with
  | nil => cases hp
  | cons q rest ih =>
    rcases List.mem_cons.mp hp with rfl | hp'
    · simp [List.find?]
    · have hq : ¬(q.1 == p.1) = true := by
        simp only [beq_iff_eq]
        intro h
        have hmem : p.1 ∈ rest.map (fun r => r.1) := List.mem_map_of_mem (fun r => r.1) hp'
        rw [List.map_cons] at hnd
        exact (List.nodup_cons.mp hnd).1 (h ▸ hmem)
      rw [List.find?_cons_of_neg rest hq]
      exact ih (List.nodup_cons.mp (by simpa using hnd)).2 hp'

/-- On a source dict with pairwise-distinct keys, dictGet at the key of a
member entry returns its stored value. -/
theorem dictGet_eq_of_nodup (source : List (String × Option PyVal))
    (hnd : (source.map (fun p => p.1)).Nodup) (p : String × Option PyVal) (hp : p ∈ source) :
    dictGet source p.1 = p.2 := by
  unfold dictGet
  rw [find_eq_self_of_nodup source hnd p hp]

/-- C1 (counterexample): a dict-sourced bit invoked with a non-None selector
and a None request raises AttributeError instead of returning the sentinel,
refuting the universal never-throws-and-degrades claim. -/
theorem dict_bit_null_request_raises :
    HeadersKeyBit.get_data (.list ["x"]) none = .error .attributeError := rfl

/-- C1 (amended): each simple scalar bit degrades to the sentinel when the
context it reads is None and never raises, while a dict-sourced bit with a
non-None selector dereferences the request and raises AttributeError when it
is None (returning the empty mapping, not the sentinel, when the selector is
None), and a queryset-derived bit raises AttributeError on a None view
instance. -/
theorem scalar_bits_sentinel_dict_and_queryset_bits_raise :
    UniqueViewIdKeyBit.get_data none = DEFAULT_CACHE_ANY_VALUE
    ∧ (∀ m, UniqueMethodIdKeyBit.get_data none m = DEFAULT_CACHE_ANY_VALUE)
    ∧ (∀ v, UniqueMethodIdKeyBit.get_data v none = DEFAULT_CACHE_ANY_VALUE)
    ∧ FormatKeyBit.get_data none = DEFAULT_CACHE_ANY_VALUE
    ∧ UserKeyBit.get_data none = DEFAULT_CACHE_ANY_VALUE
    ∧ HeadersKeyBit.get_data .null none = .ok []
    ∧ (∀ ks, HeadersKeyBit.get_data (.list ks) none = .error .attributeError)
    ∧ (∀ ks, RequestMetaKeyBit.get_data (.list ks) none = .error .attributeError)
    ∧ (∀ ks, QueryParamsKeyBit.get_data (.list ks) none = .error .attributeError)
    ∧ ListSqlQueryKeyBit.get_data none = .error .attributeError
    ∧ ListModelKeyBit.get_data none = .error .attributeError
    ∧ RetrieveSqlQueryKeyBit.get_data none = .error .attributeError
    ∧ RetrieveModelKeyBit.get_data none = .error .attributeError := by
  refine ⟨rfl, ?_, ?_, rfl, rfl, rfl, fun ks => rfl, fun ks => rfl, fun ks => rfl,
    rfl, rfl, rfl, rfl⟩
  · intro m
    cases m <;> rfl
  · intro v
    cases v <;> rfl

/-- C2: the Pagination bit uses exactly the parameter names discovered from
the paginator of the view (page_query_param when present, then
page_size_query_param when present, in that order) as the explicit selector
into the query parameters, ignoring any configured selector; consequently on a
paginator exposing only a page-size parameter named page_size and query string
page_size=100, page=1 it returns exactly the page_size entry. -/
theorem pagination_uses_discovered_params :
    (∀ v pg a b, v.paginator = some pg → pg.page_query_param = some a →
      pg.page_size_query_param = some b →
      PaginationKeyBit.discovered_params (some v) = [a, b])
    ∧ (∀ params view_instance request,
        PaginationKeyBit.get_data params view_instance request
          = QueryParamsKeyBit.get_data
              (.list (PaginationKeyBit.discovered_params view_instance)) request)
    ∧ (∀ params, PaginationKeyBit.get_data params
        (some paginationExampleView) (some paginationExampleRequest)
          = .ok [("page_size", "100")]) := by
  refine ⟨?_, fun params view_instance request => rfl, fun params => rfl⟩
  intro v pg a b hpg ha hb
  simp [PaginationKeyBit.discovered_params, hpg, ha, hb]

/-- C2 (witness): on a paginator exposing both parameter names the discovered
selector is page then page_size, and on the example context the bit returns
exactly the page_size entry whatever the configured selector was. -/
theorem pagination_uses_discovered_params_witness :
    PaginationKeyBit.discovered_params (some { paginationExampleView with
      paginator := some { page_query_param := some "page",
                          page_size_query_param := some "page_size" } })
      = ["page", "page_size"]
    ∧ PaginationKeyBit.get_data .star (some paginationExampleView)
        (some paginationExampleRequest) = .ok [("page_size", "100")] :=
  ⟨pagination_uses_discovered_params.1 _ _ _ _ rfl rfl rfl,
   pagination_uses_discovered_params.2.2 .star⟩

/-- C4: both Retrieve-variant queryset bits return None when filtering the
queryset of the view by its lookup field raises ValueError on an
unconvertible lookup value, never propagating the exception. -/
theorem retrieve_bits_null_on_value_error :
    ∀ (v : ViewInstance) (lv : PyVal),
      pyDictFind v.kwargs v.lookup_field = some lv →
      v.filterBy v.lookup_field lv = .error .valueError →
      RetrieveSqlQueryKeyBit.get_data (some v) = .ok none
      ∧ RetrieveModelKeyBit.get_data (some v) = .ok none := by
  intro v lv h1 h2
  constructor
  · simp [RetrieveSqlQueryKeyBit.get_data, h1, h2]
  · simp [RetrieveModelKeyBit.get_data, h1, h2]

/-- C4 (witness): on the example view whose lookup value abc is unconvertible
both retrieve bits return None. -/
theorem retrieve_bits_null_on_value_error_witness :
    RetrieveSqlQueryKeyBit.get_data (some valueErrorExampleView) = .ok none
    ∧ RetrieveModelKeyBit.get_data (some valueErrorExampleView) = .ok none :=
  retrieve_bits_null_on_value_error valueErrorExampleView (.vStr "abc") rfl rfl

/-- C7: ModelNameKeyBit resolves the override class carried under the key
class in a truthy params dict first (regardless of the view), else the model
backing the queryset of the view, else the sentinel. -/
theorem model_name_resolution_order :
    (∀ params view_instance c, ModelNameKeyBit.override params = some c →
      ModelNameKeyBit.get_data params view_instance = c.module ++ "." ++ c.name)
    ∧ (∀ params v, ModelNameKeyBit.override params = none →
      ModelNameKeyBit.get_data params (some v)
        = v.querysetModel.module ++ "." ++ v.querysetModel.name)
    ∧ (∀ params, ModelNameKeyBit.override params = none →
      ModelNameKeyBit.get_data params none = DEFAULT_CACHE_ANY_VALUE)
    ∧ (∀ d : List (String × ModelClass), d ≠ [] →
      ModelNameKeyBit.override (some d)
        = (d.find? (fun p => p.1 == "class")).map (fun p => p.2)) := by
  refine ⟨?_, ?_, ?_, ?_⟩
  · intro params view_instance c h
    simp [ModelNameKeyBit.get_data, h]
  · intro params v h
    simp [ModelNameKeyBit.get_data, h]
  · intro params h
    simp [ModelNameKeyBit.get_data, h]
  · intro d h
    simp [ModelNameKeyBit.override, h]

/-- C7 (witness): with an explicit override of app.models.Gadget the bit
returns app.models.Gadget regardless of the view whose queryset model is
app.models.Widget; without an override it returns app.models.Widget, and with
neither params nor view it returns the sentinel. -/
theorem model_name_resolution_order_witness :
    ModelNameKeyBit.get_data (some [("class", gadgetModelClass)])
        (some paginationExampleView) = "app.models.Gadget"
    ∧ ModelNameKeyBit.get_data none (some paginationExampleView) = "app.models.Widget"
    ∧ ModelNameKeyBit.get_data none none = DEFAULT_CACHE_ANY_VALUE :=
  ⟨model_name_resolution_order.1 _ (some paginationExampleView) gadgetModelClass rfl,
   model_name_resolution_order.2.1 none paginationExampleView rfl,
   model_name_resolution_order.2.2.1 none rfl⟩

/-- C8: UserKeyBit returns the sentinel on a None request, the literal string
anonymous when the request carries no authenticated user, and the stringified
user id for an authenticated user. -/
theorem user_bit_cases :
    UserKeyBit.get_data none = DEFAULT_CACHE_ANY_VALUE
    ∧ (∀ r : Request, r.user = none → UserKeyBit.get_data (some r) = "anonymous")
    ∧ (∀ r u, r.user = some u → u.is_authenticated = false →
        UserKeyBit.get_data (some r) = "anonymous")
    ∧ (∀ r u, r.user = some u → u.is_authenticated = true →
        UserKeyBit.get_data (some r) = force_text (.vInt u.pk)) := by
  refine ⟨rfl, ?_, ?_, ?_⟩
  · intro r h
    simp [UserKeyBit.get_data, h]
  · intro r u h1 h2
    simp [UserKeyBit.get_data, h1, h2]
  · intro r u h1 h2
    simp [UserKeyBit.get_data, h1, h2]

/-- C8 (witness): the authenticated example user with id 10 yields the string
10, the unauthenticated example user yields anonymous. -/
theorem user_bit_cases_witness :
    UserKeyBit.get_data (some userExampleRequest) = "10"
    ∧ UserKeyBit.get_data (some anonymousExampleRequest) = "anonymous" :=
  ⟨user_bit_cases.2.2.2 userExampleRequest { pk := 10, is_authenticated := true } rfl rfl,
   user_bit_cases.2.2.1 anonymousExampleRequest { pk := 7, is_authenticated := false } rfl rfl⟩

/-- C3: every queryset-derived bit yields None (not an empty string) for a
queryset empty by construction (an EmptyQuerySet instance, or a compiled query
raising EmptyResultSet), and the model-content family additionally yields None
whenever the live row count is zero; the concrete list and retrieve bits
inherit this through their shared serialization bases. -/
theorem queryset_bits_null_on_empty :
    (∀ qs : QuerySet, qs.isEmptyQuerySet = true ∨ qs.raisesEmptyResultSet = true →
      SqlQueryKeyBitBase.get_queryset_query_string qs = none
      ∧ ModelInstanceKeyBitBase.get_queryset_query_values qs = none)
    ∧ (∀ qs : QuerySet, qs.rowCount = 0 →
      ModelInstanceKeyBitBase.get_queryset_query_values qs = none)
    ∧ (∀ v : ViewInstance,
      v.filteredQueryset.isEmptyQuerySet = true ∨ v.filteredQueryset.raisesEmptyResultSet = true →
      ListSqlQueryKeyBit.get_data (some v) = .ok none
      ∧ ListModelKeyBit.get_data (some v) = .ok none)
    ∧ (∀ (v : ViewInstance) (lv : PyVal) (qs : QuerySet),
      pyDictFind v.kwargs v.lookup_field = some lv →
      v.filterBy v.lookup_field lv = .ok qs →
      qs.isEmptyQuerySet = true ∨ qs.raisesEmptyResultSet = true →
      RetrieveSqlQueryKeyBit.get_data (some v) = .ok none
      ∧ RetrieveModelKeyBit.get_data (some v) = .ok none) := by
  have hs : ∀ qs : QuerySet, qs.isEmptyQuerySet = true ∨ qs.raisesEmptyResultSet = true →
      SqlQueryKeyBitBase.get_queryset_query_string qs = none := by
    intro qs h
    cases he : qs.isEmptyQuerySet with
    | true => simp [SqlQueryKeyBitBase.get_queryset_query_string, he]
    | false =>
      rcases h with h | h
      · rw [he] at h
        cases h
      · simp [SqlQueryKeyBitBase.get_queryset_query_string, QuerySet.query_str, he, h]
  have hv : ∀ qs : QuerySet,
      qs.isEmptyQuerySet = true ∨ qs.raisesEmptyResultSet = true ∨ qs.rowCount = 0 →
      ModelInstanceKeyBitBase.get_queryset_query_values qs = none := by
    intro qs h
    cases he : qs.isEmptyQuerySet with
    | true => simp [ModelInstanceKeyBitBase.get_queryset_query_values, he]
    | false =>
      rcases h with h | h | h
      · rw [he] at h
        cases h
      · cases hc : qs.rowCount == 0 with
        | true => simp [ModelInstanceKeyBitBase.get_queryset_query_values, he, hc]
        | false =>
          simp [ModelInstanceKeyBitBase.get_queryset_query_values,
            QuerySet.values_list_text, he, hc, h]
      · simp [ModelInstanceKeyBitBase.get_queryset_query_values, he, h]
  refine ⟨fun qs h => ⟨hs qs h, hv qs (by tauto)⟩, fun qs h => hv qs (by tauto), ?_, ?_⟩
  · intro v h
    exact ⟨by simp [ListSqlQueryKeyBit.get_data, hs _ h],
      by simp [ListModelKeyBit.get_data, hv _ (by tauto)]⟩
  · intro v lv qs h1 h2 h3
    constructor
    · simp [RetrieveSqlQueryKeyBit.get_data, h1, h2, hs _ h3]
    · simp [RetrieveModelKeyBit.get_data, h1, h2, hv _ (by tauto)]

/-- C3 (witness): the bases yield None on the EmptyQuerySet example, the
raising example and the zero-row example, and the retrieve bits yield None on
the view whose lookup filtering produces the EmptyQuerySet example. -/
theorem queryset_bits_null_on_empty_witness :
    SqlQueryKeyBitBase.get_queryset_query_string emptyExampleQuerySet = none
    ∧ ModelInstanceKeyBitBase.get_queryset_query_values raisingExampleQuerySet = none
    ∧ ModelInstanceKeyBitBase.get_queryset_query_values zeroRowsExampleQuerySet = none
    ∧ ListSqlQueryKeyBit.get_data (some emptyFilterExampleView) = .ok none
    ∧ RetrieveModelKeyBit.get_data (some emptyFilterExampleView) = .ok none :=
  ⟨(queryset_bits_null_on_empty.1 emptyExampleQuerySet (Or.inl rfl)).1,
   (queryset_bits_null_on_empty.1 raisingExampleQuerySet (Or.inr rfl)).2,
   queryset_bits_null_on_empty.2.1 zeroRowsExampleQuerySet rfl,
   (queryset_bits_null_on_empty.2.2.1 emptyFilterExampleView (Or.inl rfl)).1,
   (queryset_bits_null_on_empty.2.2.2 emptyFilterExampleView (.vStr "3")
      emptyExampleQuerySet rfl rfl (Or.inl rfl)).2⟩

/-- An index at or past the length of the argument list raises IndexError. -/
theorem pyListIndex_out_of_range (args : List PyVal) (i : Int)
    (h : (args.length : Int) ≤ i) : pyListIndex args i = .error .indexError := by
  unfold pyListIndex
  have h0 : (0 : Int) ≤ i := le_trans (by positivity) h
  have hnot : ¬i < 0 := not_lt.mpr h0
  have hge : args.length ≤ i.toNat := by
    have := Int.toNat_le_toNat h
    simpa using this
  simp only [hnot, if_false, h0, if_true]
  rw [List.getElem?_eq_none hge]

/-- The only exception pyListIndex raises is IndexError. -/
theorem pyListIndex_error (args : List PyVal) (i : Int) (e : PyErr)
    (h : pyListIndex args i = .error e) : e = .indexError := by
  unfold pyListIndex at h
  by_cases h0 : (0 : Int) ≤ (if i < 0 then i + args.length else i)
  · rw [if_pos h0] at h
    cases hg : args[(if i < 0 then i + ((args.length : Nat) : Int) else i).toNat]? with
    | none =>
      rw [hg] at h
      cases h
      rfl
    | some a =>
      rw [hg] at h
      cases h
  · rw [if_neg h0] at h
    cases h
    rfl

/-- A successful gather means every selected index resolved. -/
theorem gather_ok_all_resolve (args : List PyVal) :
    ∀ (l : List Int) (res : List PyVal), ArgsKeyBit.gather args l = .ok res →
      ∀ i ∈ l, ∃ a, pyListIndex args i = .ok a := by
  intro l
  induction l with
  | nil =>
    intro res _ i hi
    cases hi
  | cons j l ih =>
    intro res h i hi
    unfold ArgsKeyBit.gather at h
    cases hj : pyListIndex args j with
    | ok a =>
      rw [hj] at h
      rcases List.mem_cons.mp hi with rfl | hi'
      · exact ⟨a, hj⟩
      · cases hrest : ArgsKeyBit.gather args l with
        | ok res' => exact ih res' hrest i hi'
        | error e =>
          rw [hrest] at h
          cases h
    | error e =>
      rw [hj] at h
      cases h

/-- The only exception gather raises is IndexError. -/
theorem gather_error (args : List PyVal) :
    ∀ (l : List Int) (e : PyErr), ArgsKeyBit.gather args l = .error e →
      e = .indexError := by
  intro l
  induction l with
  | nil =>
    intro e h
    cases h
  | cons j l ih =>
    intro e h
    unfold ArgsKeyBit.gather at h
    cases hj : pyListIndex args j with
    | ok a =>
      rw [hj] at h
      cases hrest : ArgsKeyBit.gather args l with
      | ok res' =>
        rw [hrest] at h
        cases h
      | error e' =>
        rw [hrest] at h
        cases h
        exact ih _ hrest
    | error e' =>
      rw [hj] at h
      cases h
      exact pyListIndex_error args j _ hj

/-- Every in-range selected index contributes its element, in selector
order. -/
theorem gather_all_in_range (args : List PyVal) :
    ∀ l : List Int, (∀ i ∈ l, 0 ≤ i ∧ i < (args.length : Int)) →
      ArgsKeyBit.gather args l = .ok (l.map (fun i => args.getD i.toNat (.vStr ""))) := by
  intro l
  induction l with
  | nil =>
    intro _
    rfl
  | cons j l ih =>
    intro h
    obtain ⟨h0, hlt⟩ := h j (List.mem_cons_self j l)
    have hjn : j.toNat < args.length := by
      rw [← Int.toNat_lt h0] at hlt
      simpa using hlt
    have hj : pyListIndex args j = .ok (args.getD j.toNat (.vStr "")) := by
      unfold pyListIndex
      have hnot : ¬j < 0 := not_lt.mpr h0
      simp only [hnot, if_false, h0, if_true]
      rw [List.getElem?_eq_getElem hjn, List.getD_eq_getElem _ _ hjn]
    unfold ArgsKeyBit.gather
    rw [hj, ih (fun i hi => h i (List.mem_cons_of_mem j hi))]
    rfl

/-- C9: ArgsKeyBit passes the whole positional-argument sequence through on
the wildcard, gathers the selected indices in selector order (also
non-monotonic) for an explicit selector, and yields the empty sequence for a
None selector. -/
theorem args_bit_selection :
    (∀ args, ArgsKeyBit.get_data .star args = .ok args)
    ∧ (∀ args, ArgsKeyBit.get_data .null args = .ok [])
    ∧ (∀ (args : List PyVal) (l : List Int),
        (∀ i ∈ l, 0 ≤ i ∧ i < (args.length : Int)) →
        ArgsKeyBit.get_data (.idxList l) args
          = .ok (l.map (fun i => args.getD i.toNat (.vStr "")))) :=
  ⟨fun _ => rfl, fun _ => rfl,
   fun args l h => gather_all_in_range args l h⟩

/-- C9 (witness): on arguments a, b, c and the non-monotonic selector 0, 2 the
bit returns a, c in selector order; the wildcard passes the sequence through
and the None selector yields the empty sequence. -/
theorem args_bit_selection_witness :
    ArgsKeyBit.get_data (.idxList [0, 2]) [.vStr "a", .vStr "b", .vStr "c"]
      = .ok [.vStr "a", .vStr "c"]
    ∧ ArgsKeyBit.get_data .star [.vStr "a"] = .ok [.vStr "a"]
    ∧ ArgsKeyBit.get_data .null [.vStr "a"] = .ok [] :=
  ⟨args_bit_selection.2.2 [.vStr "a", .vStr "b", .vStr "c"] [0, 2] (by decide),
   args_bit_selection.1 [.vStr "a"],
   args_bit_selection.2.1 [.vStr "a"]⟩

/-- C10: with an explicit selector containing an index at or past the number
of positional arguments, ArgsKeyBit raises IndexError rather than degrading to
the sentinel, an empty sequence or any fragment. -/
theorem args_bit_out_of_range_raises :
    ∀ (args : List PyVal) (l : List Int) (i : Int), i ∈ l →
      (args.length : Int) ≤ i →
      ArgsKeyBit.get_data (.idxList l) args = .error .indexError := by
  intro args l i hi hlen
  show ArgsKeyBit.gather args l = .error .indexError
  cases hres : ArgsKeyBit.gather args l with
  | ok res =>
    obtain ⟨a, ha⟩ := gather_ok_all_resolve args l res hres i hi
    rw [pyListIndex_out_of_range args i hlen] at ha
    cases ha
  | error e =>
    rw [gather_error args l e hres]

/-- C10 (witness): selector 1 on the one-element argument list a raises
IndexError. -/
theorem args_bit_out_of_range_raises_witness :
    ArgsKeyBit.get_data (.idxList [1]) [.vStr "a"] = .error .indexError :=
  args_bit_out_of_range_raises [.vStr "a"] [1] 1 (by decide) (by decide)

/-- Helper for C5: for a bit whose two key transforms are the identity, the
wildcard output is the source mapping with its values forced to text, in
enumeration order, provided the keys are distinct and no value is None. -/
theorem identity_spec_wildcard (spec : DictBitSpec)
    (hretr : ∀ k, spec.prepare_key_for_value_retrieving k = k)
    (hassign : ∀ k, spec.prepare_key_for_value_assignment k = k)
    (source : List (String × Option PyVal))
    (hnd : (source.map (fun p => p.1)).Nodup)
    (hvals : ∀ p ∈ source, p.2 ≠ none) :
    KeyBitDictBase.get_data spec .star source
      = source.map (fun p => (p.1, force_text (p.2.getD (.vStr "")))) := by
  show (source.map (fun p => p.1)).foldl (dictBitStep spec source) []
      = source.map (fun p => (p.1, force_text (p.2.getD (.vStr ""))))
  rw [dictBit_foldl_entries spec source (source.map (fun p => p.1)) [] ?hv ?hn ?hk]
  case hv =>
    intro k hk
    rcases List.mem_map.mp hk with ⟨p, hp, rfl⟩
    rw [hretr, dictGet_eq_of_nodup source hnd p hp]
    exact hvals p hp
  case hn =>
    have hmap : (source.map (fun p => p.1)).map spec.prepare_key_for_value_assignment
        = source.map (fun p => p.1) := by
      have := List.map_congr_left (l := source.map (fun p => p.1))
        (f := spec.prepare_key_for_value_assignment) (g := fun k => k)
        (fun k _ => hassign k)
      rw [this, List.map_id']
    rw [hmap]
    exact hnd
  case hk =>
    intro k _
    exact List.not_mem_nil _
  rw [List.nil_append, List.map_map]
  apply List.map_congr_left
  intro p hp
  simp only [Function.comp_apply]
  rw [hassign, hretr, dictGet_eq_of_nodup source hnd p hp]

/-- C5 (counterexample): wildcard selection on the Headers bit over a
one-entry source mapping with no None values produces an empty output mapping
(zero entries, not one), because the retrieval transform re-prefixes the
already-prefixed source key. -/
theorem headers_wildcard_counterexample :
    KeyBitDictBase.get_data HeadersKeyBit.spec .star
        [("HTTP_ACCEPT_LANGUAGE", some (.vStr "ru"))] = []
    ∧ ([("HTTP_ACCEPT_LANGUAGE", some (.vStr "ru"))] :
        List (String × Option PyVal)).length = 1
    ∧ ∀ p ∈ ([("HTTP_ACCEPT_LANGUAGE", some (.vStr "ru"))] :
        List (String × Option PyVal)), p.2 ≠ none :=
  ⟨rfl, rfl, by decide⟩

/-- C5 (amended): for every dict-sourced bit whose key transforms are the
identity (RequestMeta, QueryParams, Kwargs, hence also the Pagination
delegate), wildcard selection over a source mapping of size N with distinct
keys and no None values produces exactly the N source entries forced to text
in source enumeration order (for the Headers bit the re-transformation of the
source keys can instead drop entries); with an explicit selector over
distinctly-assigned keys that all retrieve values, output keys follow selector
order; and when two selector keys transform to the same assignment key the
later one silently overwrites the earlier (last-write-wins). -/
theorem dict_bit_wildcard_and_selector_order :
    (∀ spec ∈ identityDictBitSpecs, ∀ source : List (String × Option PyVal),
      (source.map (fun p => p.1)).Nodup →
      (∀ p ∈ source, p.2 ≠ none) →
      KeyBitDictBase.get_data spec .star source
        = source.map (fun p => (p.1, force_text (p.2.getD (.vStr "")))))
    ∧ (∀ (spec : DictBitSpec) (source : List (String × Option PyVal)) (ks : List String),
        (ks.map spec.prepare_key_for_value_assignment).Nodup →
        (∀ k ∈ ks, dictGet source (spec.prepare_key_for_value_retrieving k) ≠ none) →
        dictKeys (KeyBitDictBase.get_data spec (.list ks) source)
          = ks.map spec.prepare_key_for_value_assignment)
    ∧ (∀ (spec : DictBitSpec) (source : List (String × Option PyVal))
        (k1 k2 : String) (v1 v2 : PyVal),
        spec.prepare_key_for_value_assignment k1 = spec.prepare_key_for_value_assignment k2 →
        dictGet source (spec.prepare_key_for_value_retrieving k1) = some v1 →
        dictGet source (spec.prepare_key_for_value_retrieving k2) = some v2 →
        KeyBitDictBase.get_data spec (.list [k1, k2]) source
          = [(spec.prepare_key_for_value_assignment k1, force_text v2)]) := by
  refine ⟨?_, ?_, ?_⟩
  · intro spec hspec source hnd hvals
    simp only [identityDictBitSpecs, List.mem_cons, List.not_mem_nil, or_false] at hspec
    rcases hspec with rfl | rfl | rfl <;>
      exact identity_spec_wildcard _ (fun k => rfl) (fun k => rfl) source hnd hvals
  · intro spec source ks hnd hvals
    show dictKeys (ks.foldl (dictBitStep spec source) [])
        = ks.map spec.prepare_key_for_value_assignment
    rw [dictBit_foldl_entries spec source ks [] hvals hnd (fun k _ => List.not_mem_nil _)]
    unfold dictKeys
    rw [List.nil_append, List.map_map]
    rfl
  · intro spec source k1 k2 v1 v2 h h1 h2
    show [k1, k2].foldl (dictBitStep spec source) []
        = [(spec.prepare_key_for_value_assignment k1, force_text v2)]
    rw [List.foldl_cons, List.foldl_cons, List.foldl_nil]
    unfold dictBitStep
    rw [h1, h2, ← h]
    simp [pyDictAssign]

/-- C5 (witness): an identity bit wildcard over two entries yields both in
source order; a Headers explicit selector yields the lower-cased keys in
selector order; two selector keys with the same assignment key yield a single
entry holding the later value. -/
theorem dict_bit_wildcard_and_selector_order_witness :
    KeyBitDictBase.get_data QueryParamsKeyBit.spec .star
        [("a", some (.vStr "1")), ("b", some (.vStr "2"))]
      = [("a", "1"), ("b", "2")]
    ∧ dictKeys (KeyBitDictBase.get_data HeadersKeyBit.spec (.list ["A", "B"])
        [("http_a", some (.vStr "1")), ("http_b", some (.vStr "2"))])
      = ["a", "b"]
    ∧ KeyBitDictBase.get_data HeadersKeyBit.spec (.list ["A-b", "a-B"])
        [("http_a_b", some (.vStr "ru"))]
      = [("a-b", "ru")] :=
  ⟨dict_bit_wildcard_and_selector_order.1 QueryParamsKeyBit.spec
      (by simp [identityDictBitSpecs])
      [("a", some (.vStr "1")), ("b", some (.vStr "2"))] (by decide) (by decide),
   dict_bit_wildcard_and_selector_order.2.1 HeadersKeyBit.spec
      [("http_a", some (.vStr "1")), ("http_b", some (.vStr "2"))] ["A", "B"]
      (by decide) (by decide),
   dict_bit_wildcard_and_selector_order.2.2 HeadersKeyBit.spec
      [("http_a_b", some (.vStr "ru"))] "A-b" "a-B" (.vStr "ru") (.vStr "ru")
      (by decide) (by decide) (by decide)⟩

/-- Helper for C6: in every concrete dict-sourced bit the retrieval transform
factors through the assignment transform, so two selector keys assigning to
the same output key also retrieve the same source value. -/
theorem dictSourcedBitSpecs_compat :
    ∀ spec ∈ dictSourcedBitSpecs, ∀ a b : String,
      spec.prepare_key_for_value_assignment a = spec.prepare_key_for_value_assignment b →
      spec.prepare_key_for_value_retrieving a = spec.prepare_key_for_value_retrieving b := by
  intro spec hspec a b h
  simp only [dictSourcedBitSpecs, List.mem_cons, List.not_mem_nil, or_false] at hspec
  rcases hspec with rfl | rfl | rfl | rfl
  · show prepare_header_name (pyLower a) = prepare_header_name (pyLower b)
    have hl : pyLower a = pyLower b := h
    rw [hl]
  · exact h
  · exact h
  · exact h

/-- C6: for every concrete dict-sourced bit and every selected key, the
transformed key appears in the output mapping iff the looked-up source value
is non-None (missing and None values are omitted, never rendered as empty
placeholders); every included entry is the force-converted text of a looked-up
non-None source value; and wildcard selection is the explicit selection of all
source keys. -/
theorem dict_bit_inclusion_iff_non_null :
    ∀ spec ∈ dictSourcedBitSpecs,
      ∀ (source : List (String × Option PyVal)) (ks : List String) (k : String), k ∈ ks →
        ((spec.prepare_key_for_value_assignment k
            ∈ dictKeys (KeyBitDictBase.get_data spec (.list ks) source) ↔
          dictGet source (spec.prepare_key_for_value_retrieving k) ≠ none)
        ∧ (∀ p ∈ KeyBitDictBase.get_data spec (.list ks) source,
            ∃ k0 v, k0 ∈ ks ∧ p.1 = spec.prepare_key_for_value_assignment k0 ∧
              dictGet source (spec.prepare_key_for_value_retrieving k0) = some v ∧
              p.2 = force_text v)
        ∧ KeyBitDictBase.get_data spec .star source
            = KeyBitDictBase.get_data spec (.list (source.map (fun p => p.1))) source) := by
  intro spec hspec source ks k hk
  refine ⟨?_, ?_, rfl⟩
  · show spec.prepare_key_for_value_assignment k
        ∈ dictKeys (ks.foldl (dictBitStep spec source) []) ↔ _
    rw [dictBit_foldl_keys]
    constructor
    · rintro (h | ⟨k0, hk0, h1, h2⟩)
      · exact absurd h (List.not_mem_nil _)
      · rw [← dictSourcedBitSpecs_compat spec hspec k0 k h1]
        exact h2
    · intro h
      exact Or.inr ⟨k, hk, rfl, h⟩
  · intro p hp
    rcases dictBit_foldl_mem spec source ks [] p hp with h | h
    · exact absurd h (List.not_mem_nil p)
    · exact h

/-- C6 (witness): on the Headers bit with selector Accept-Language over a
one-entry source, the lower-cased key is included iff the transformed lookup
succeeds, every entry is a forced text of a source value, and the wildcard
case coincides with selecting all source keys. -/
theorem dict_bit_inclusion_iff_non_null_witness :
    (HeadersKeyBit.spec.prepare_key_for_value_assignment "Accept-Language"
        ∈ dictKeys (KeyBitDictBase.get_data HeadersKeyBit.spec (.list ["Accept-Language"])
            [("http_accept_language", some (.vStr "ru"))]) ↔
      dictGet [("http_accept_language", some (.vStr "ru"))]
        (HeadersKeyBit.spec.prepare_key_for_value_retrieving "Accept-Language") ≠ none)
    ∧ (∀ p ∈ KeyBitDictBase.get_data HeadersKeyBit.spec (.list ["Accept-Language"])
          [("http_accept_language", some (.vStr "ru"))],
        ∃ k0 v, k0 ∈ ["Accept-Language"]
          ∧ p.1 = HeadersKeyBit.spec.prepare_key_for_value_assignment k0
          ∧ dictGet [("http_accept_language", some (.vStr "ru"))]
              (HeadersKeyBit.spec.prepare_key_for_value_retrieving k0) = some v
          ∧ p.2 = force_text v)
    ∧ KeyBitDictBase.get_data HeadersKeyBit.spec .star
        [("http_accept_language", some (.vStr "ru"))]
      = KeyBitDictBase.get_data HeadersKeyBit.spec
          (.list (([("http_accept_language", some (.vStr "ru"))] :
            List (String × Option PyVal)).map (fun p => p.1)))
          [("http_accept_language", some (.vStr "ru"))] :=
  dict_bit_inclusion_iff_non_null HeadersKeyBit.spec (by simp [dictSourcedBitSpecs])
    [("http_accept_language", some (.vStr "ru"))] ["Accept-Language"]
    "Accept-Language" (by decide)

end Drfx
